import Mathlib

/-!
Shallow embedding of the transaction-processing pipeline in
src/transaction_processor.py (class TransactionProcessor), together with
theorems checking the specification's claims about it.

The embedding models:
- pandas string normalization (.astype(str).str.strip().str.upper()) as
  explicit character-list operations (ASCII case mapping, whitespace strip);
- pd.to_datetime with the exact format "%Y-%m-%d %H:%M:%S" and errors="coerce"
  as an Option-valued strict parse;
- pd.to_datetime with default (lenient) parsing and errors="raise", as used by
  get_transactions_by_timerange, as an Option-valued lenient parse accepting
  the full timestamp format and the bare date format "%Y-%m-%d";
- pd.to_numeric(errors="coerce") as an Option-valued decimal-literal parse
  with values in the rationals;
- DataFrames as lists of rows; NaN/NaT entries as Option.none in the
  intermediate per-column state;
- exceptions as an Except error channel; the mutable processor object as an
  explicit state record threaded through the stage functions.
-/

namespace PortfolioInsights

/-! ### Characters and strings: pandas .str.strip() / .str.upper() -/

/-- Whitespace characters stripped by str.strip(). -/
def isSpaceChar (c : Char) : Bool :=
  c = ' ' || c = '\t' || c = '\n' || c = '\r' || c = '\x0b' || c = '\x0c'

/-- ASCII upper-casing of one character, as str.upper() acts on ASCII input. -/
def upperChar (c : Char) : Char :=
  if 'a' ≤ c && c ≤ 'z' then Char.ofNat (c.toNat - 32) else c

/-- Remove leading and trailing whitespace, as str.strip(). -/
def stripChars (cs : List Char) : List Char :=
  ((cs.dropWhile isSpaceChar).reverse.dropWhile isSpaceChar).reverse

/-- The normalization .str.strip().str.upper() applied to the string fields
ticker, action and trader_id in clean_data. -/
def normalizeField (s : String) : String :=
  ⟨(stripChars s.data).map upperChar⟩

/-! ### Datetimes -/

/-- A parsed datetime (pandas Timestamp), to second precision as produced by
the format "%Y-%m-%d %H:%M:%S". -/
structure DateTime where
  year : Nat
  month : Nat
  day : Nat
  hour : Nat
  minute : Nat
  second : Nat
deriving DecidableEq

instance : Inhabited DateTime := ⟨⟨0, 0, 0, 0, 0, 0⟩⟩

/-- Order-faithful numeric key of a datetime (fields are within range for any
parsed datetime, so lexicographic comparison agrees with this key). -/
def dtKey (d : DateTime) : Nat :=
  ((((d.year * 13 + d.month) * 32 + d.day) * 24 + d.hour) * 60 + d.minute) * 60 + d.second

/-- Gregorian leap year test, as used by the datetime library. -/
def isLeapYear (y : Nat) : Bool :=
  y % 4 = 0 && (y % 100 ≠ 0 || y % 400 = 0)

/-- Days in a month of a given year. -/
def daysInMonth (y m : Nat) : Nat :=
  if m = 2 then (if isLeapYear y then 29 else 28)
  else if m = 4 || m = 6 || m = 9 || m = 11 then 30
  else 31

/-- Calendar/clock validity of the parsed fields: pd.to_datetime rejects
out-of-range components even when the text matches the format shape. -/
def validDT (d : DateTime) : Bool :=
  1 ≤ d.month && d.month ≤ 12 && 1 ≤ d.day && d.day ≤ daysInMonth d.year d.month
    && d.hour ≤ 23 && d.minute ≤ 59 && d.second ≤ 59

/-- Value of a decimal digit character, none for a non-digit. -/
def digitVal (c : Char) : Option Nat :=
  if c.isDigit then some (c.toNat - 48) else none

/-- Strict parse of "%Y-%m-%d %H:%M:%S", modelling
pd.to_datetime(format="%Y-%m-%d %H:%M:%S", errors="coerce"): none is NaT. -/
def parseTimestampStrict (s : String) : Option DateTime :=
  match s.data with
  | [y1, y2, y3, y4, c1, m1, m2, c2, d1, d2, c3, h1, h2, c4, n1, n2, c5, s1, s2] =>
    if c1 = '-' && c2 = '-' && c3 = ' ' && c4 = ':' && c5 = ':' then
      match digitVal y1, digitVal y2, digitVal y3, digitVal y4, digitVal m1, digitVal m2,
            digitVal d1, digitVal d2, digitVal h1, digitVal h2, digitVal n1, digitVal n2,
            digitVal s1, digitVal s2 with
      | some a, some b, some c, some d, some e, some f, some g, some h,
        some i, some j, some k, some l, some m, some n =>
        let dt : DateTime :=
          ⟨a * 1000 + b * 100 + c * 10 + d, e * 10 + f, g * 10 + h,
           i * 10 + j, k * 10 + l, m * 10 + n⟩
        if validDT dt then some dt else none
      | _, _, _, _, _, _, _, _, _, _, _, _, _, _ => none
    else none
  | _ => none

/-- Lenient parse as used for the query bounds: pd.to_datetime with default
format inference accepts (among others) the full timestamp format and a bare
date "%Y-%m-%d", which is taken at midnight; none models the raised parse
error (errors="raise"). -/
def parseLenient (s : String) : Option DateTime :=
  match parseTimestampStrict s with
  | some dt => some dt
  | none =>
    match s.data with
    | [y1, y2, y3, y4, c1, m1, m2, c2, d1, d2] =>
      if c1 = '-' && c2 = '-' then
        match digitVal y1, digitVal y2, digitVal y3, digitVal y4,
              digitVal m1, digitVal m2, digitVal d1, digitVal d2 with
        | some a, some b, some c, some d, some e, some f, some g, some h =>
          let dt : DateTime :=
            ⟨a * 1000 + b * 100 + c * 10 + d, e * 10 + f, g * 10 + h, 0, 0, 0⟩
          if validDT dt then some dt else none
        | _, _, _, _, _, _, _, _ => none
      else none
    | _ => none

/-! ### Numeric coercion: pd.to_numeric(errors="coerce") -/

/-- Numeric value of a digit string (callers ensure all characters are
digits). -/
def natOfDigits (cs : List Char) : Nat :=
  cs.foldl (fun n c => n * 10 + (c.toNat - 48)) 0

/-- Split a character list at the dots. -/
def splitOnDot (cs : List Char) : List (List Char) :=
  cs.foldr
    (fun c acc =>
      if c = '.' then [] :: acc
      else
        match acc with
        | a :: rest => (c :: a) :: rest
        | [] => [[c]])
    [[]]

/-- Parse a decimal literal (optional sign, optional fractional part) to a
rational, modelling pd.to_numeric(errors="coerce") on the decimal numbers it
accepts: none is NaN. -/
def parseNum (s : String) : Option ℚ :=
  let t := stripChars s.data
  let signDrop : Bool × List Char :=
    match t with
    | c :: rest => if c = '-' then (true, rest) else if c = '+' then (false, rest) else (false, t)
    | [] => (false, [])
  let neg := signDrop.fst
  let body := signDrop.snd
  let val : Option ℚ :=
    match splitOnDot body with
    | [a] =>
      if a.all Char.isDigit && !a.isEmpty then some ((natOfDigits a : ℚ)) else none
    | [a, b] =>
      if a.all Char.isDigit && b.all Char.isDigit && (!a.isEmpty || !b.isEmpty) then
        some ((natOfDigits a : ℚ) + (natOfDigits b : ℚ) / ((10 : ℚ) ^ b.length))
      else none
    | _ => none
  val.map (fun q => if neg then -q else q)

/-! ### Rows and the cleaning stage (clean_data) -/

/-- One raw CSV row, all six columns read as text (RawRecord). -/
structure RawRow where
  timestamp : String
  ticker : String
  action : String
  quantity : String
  price : String
  trader_id : String
deriving DecidableEq

/-- One cleaned row (Transaction), with the derived columns total_value and
date added by clean_data. -/
structure CleanRow where
  timestamp : DateTime
  ticker : String
  action : String
  trader_id : String
  quantity : ℚ
  price : ℚ
  total_value : ℚ
  date : Nat × Nat × Nat
deriving DecidableEq

/-- Per-row state after the columnwise conversions of clean_data (timestamp
parse, string normalization, numeric coercion) and before any row is
dropped; none models NaT/NaN in that column. The string columns pass through
.astype(str) first, so they are never missing. -/
structure MidRow where
  timestamp : Option DateTime
  ticker : String
  action : String
  trader_id : String
  quantity : Option ℚ
  price : Option ℚ
deriving DecidableEq

/-- The columnwise conversions of clean_data applied to one row. -/
def midOf (r : RawRow) : MidRow :=
  { timestamp := parseTimestampStrict r.timestamp
    ticker := normalizeField r.ticker
    action := normalizeField r.action
    trader_id := normalizeField r.trader_id
    quantity := parseNum r.quantity
    price := parseNum r.price }

/-- Survives df.dropna(subset=["timestamp","ticker","action","quantity","price"]):
the string columns are never NA after .astype(str), so only timestamp,
quantity and price can be missing. -/
def passDropna (m : MidRow) : Bool :=
  m.timestamp.isSome && m.quantity.isSome && m.price.isSome

/-- Survives the action filter df["action"].isin(["BUY", "SELL"]). -/
def passAction (m : MidRow) : Bool :=
  m.action = "BUY" || m.action = "SELL"

/-- Pandas comparison-with-0 on a possibly-NA value: NaN <= 0 is False. -/
def nonposQ (o : Option ℚ) : Bool :=
  match o with
  | some q => decide (q ≤ 0)
  | none => false

/-- Survives the mask ~((df["quantity"] <= 0) | (df["price"] <= 0)). -/
def passPositive (m : MidRow) : Bool :=
  !(nonposQ m.quantity || nonposQ m.price)

/-- Derived-column step of clean_data: total_value = quantity * price and
date = timestamp.dt.date. Rows reaching this step have all three Option
columns present. -/
def finalizeMid (m : MidRow) : CleanRow :=
  let dt := m.timestamp.getD default
  let q := m.quantity.getD 0
  let p := m.price.getD 0
  { timestamp := dt
    ticker := m.ticker
    action := m.action
    trader_id := m.trader_id
    quantity := q
    price := p
    total_value := q * p
    date := (dt.year, dt.month, dt.day) }

/-- Timestamp-ascending order on cleaned rows, used by
df.sort_values("timestamp"). -/
def tsLe (a b : CleanRow) : Prop :=
  dtKey a.timestamp ≤ dtKey b.timestamp

instance : DecidableRel tsLe := fun a b => Nat.decLe _ _

instance : IsTotal CleanRow tsLe := ⟨fun a b => Nat.le_total _ _⟩

instance : IsTrans CleanRow tsLe := ⟨fun _ _ _ h h' => Nat.le_trans h h'⟩

/-- The whole body of clean_data on a loaded raw table: columnwise
conversion, the three row filters in program order, the derived columns, and
the final sort_values("timestamp").reset_index(drop=True) (a list carries
contiguous positions from zero by construction). -/
def cleanRows (rows : List RawRow) : List CleanRow :=
  List.insertionSort tsLe
    (((((rows.map midOf).filter passDropna).filter passAction).filter passPositive).map finalizeMid)

/-- The image of a single raw row under the conversions and derived-column
computation of clean_data. -/
def cleanOf (r : RawRow) : CleanRow :=
  finalizeMid (midOf r)

/-- A raw row survives all three row filters of clean_data. -/
def rawOk (r : RawRow) : Bool :=
  passDropna (midOf r) && passAction (midOf r) && passPositive (midOf r)

/-! ### Analytics (calculate_analytics) -/

/-- Sum of the values attached to one key, as a pandas groupby-sum computes
it for that key. -/
def sumForKey (pairs : List (String × ℚ)) (k : String) : ℚ :=
  ((pairs.filter (fun p => p.fst == k)).map Prod.snd).sum

/-- Ascending-key order used by pandas groupby on string keys. -/
def strLe (a b : String) : Prop := a ≤ b

instance : DecidableRel strLe := fun a b =>
  (inferInstance : Decidable (a ≤ b))

/-- df.groupby(key)[value].sum(): one entry per distinct key, keys ascending. -/
def groupSum (pairs : List (String × ℚ)) : List (String × ℚ) :=
  (List.insertionSort strLe (pairs.map Prod.fst).dedup).map (fun k => (k, sumForKey pairs k))

/-- Series.sort_values(ascending=False): order entries by value descending. -/
def sortValDesc (pairs : List (String × ℚ)) : List (String × ℚ) :=
  List.insertionSort (fun a b => b.snd ≤ a.snd) pairs

/-- buys.sub(sells, fill_value=0): align on the union of the index sets,
treating a missing side as 0. -/
def lookupZero (pairs : List (String × ℚ)) (k : String) : ℚ :=
  (List.lookup k pairs).getD 0

/-- The aligned subtraction used for net_position, with ascending key order
as pandas alignment produces. -/
def subFillZero (buys sells : List (String × ℚ)) : List (String × ℚ) :=
  (List.insertionSort strLe (buys.map Prod.fst ++ sells.map Prod.fst).dedup).map
    (fun k => (k, lookupZero buys k - lookupZero sells k))

/-- Minimum timestamp of the table (df["timestamp"].min()); none is the NaT
result on an empty table. -/
def minTimestamp (df : List CleanRow) : Option DateTime :=
  df.foldl
    (fun acc t =>
      match acc with
      | none => some t.timestamp
      | some m => if dtKey t.timestamp < dtKey m then some t.timestamp else some m)
    none

/-- Maximum timestamp of the table (df["timestamp"].max()). -/
def maxTimestamp (df : List CleanRow) : Option DateTime :=
  df.foldl
    (fun acc t =>
      match acc with
      | none => some t.timestamp
      | some m => if dtKey m < dtKey t.timestamp then some t.timestamp else some m)
    none

/-- Per-trader row count and notional, one entry per distinct trader_id. -/
def traderAgg (df : List CleanRow) : List (String × Nat × ℚ) :=
  ((List.insertionSort strLe (df.map (fun t => t.trader_id)).dedup).map
    (fun k =>
      (k, (df.filter (fun t => t.trader_id == k)).length,
        ((df.filter (fun t => t.trader_id == k)).map (fun t => t.total_value)).sum)))

/-- Per-date notional (df.groupby("date")["total_value"].sum().sort_index()),
keys ascending by date. -/
def dailyVolume (df : List CleanRow) : List ((Nat × Nat × Nat) × ℚ) :=
  let dLe : (Nat × Nat × Nat) → (Nat × Nat × Nat) → Prop := fun a b =>
    (a.1 * 13 + a.2.1) * 32 + a.2.2 ≤ (b.1 * 13 + b.2.1) * 32 + b.2.2
  (@List.insertionSort _ dLe (fun a b => Nat.decLe _ _) (df.map (fun t => t.date)).dedup).map
    (fun d => (d, ((df.filter (fun t => t.date == d)).map (fun t => t.total_value)).sum))

/-- df["action"].value_counts(): one entry per distinct action value, ordered
by count descending. -/
def actionCounts (df : List CleanRow) : List (String × Nat) :=
  List.insertionSort (fun a b : String × Nat => b.snd ≤ a.snd)
    ((df.map (fun t => t.action)).dedup.map
      (fun a => (a, (df.filter (fun t => t.action == a)).length)))

/-- The analytics bundle assembled by calculate_analytics. -/
structure Analytics where
  total_transactions : Nat
  total_volume : ℚ
  unique_tickers : Nat
  unique_traders : Nat
  date_range : Option DateTime × Option DateTime
  volume_by_ticker : List (String × ℚ)
  net_position : List (String × ℚ)
  trader_activity : List (String × Nat × ℚ)
  daily_volume : List ((Nat × Nat × Nat) × ℚ)
  action_counts : List (String × Nat)
deriving DecidableEq

/-- The body of calculate_analytics on a cleaned table. -/
def computeAnalytics (df : List CleanRow) : Analytics :=
  { total_transactions := df.length
    total_volume := (df.map (fun t => t.total_value)).sum
    unique_tickers := (df.map (fun t => t.ticker)).dedup.length
    unique_traders := (df.map (fun t => t.trader_id)).dedup.length
    date_range := (minTimestamp df, maxTimestamp df)
    volume_by_ticker := sortValDesc (groupSum (df.map (fun t => (t.ticker, t.total_value))))
    net_position :=
      sortValDesc
        (subFillZero
          (groupSum ((df.filter (fun t => t.action == "BUY")).map (fun t => (t.ticker, t.quantity))))
          (groupSum ((df.filter (fun t => t.action == "SELL")).map (fun t => (t.ticker, t.quantity)))))
    trader_activity := traderAgg df
    daily_volume := dailyVolume df
    action_counts := actionCounts df }

/-! ### The stateful pipeline controller -/

/-- Error channel: ValueError raised for a stage invoked out of order, the
missing-columns ValueError of load_data (the SchemaError of the spec), and
the parse error raised by pd.to_datetime(errors="raise") on a query bound. -/
inductive PipelineErr where
  | invalidState (msg : String)
  | schemaErr (missing : List String)
  | parseErr
deriving DecidableEq

/-- A parsed CSV file: its header and its rows. -/
structure Csv where
  header : List String
  rows : List RawRow

/-- The mutable fields of a TransactionProcessor instance. -/
structure ProcState where
  df : Option (List RawRow)
  cleaned_df : Option (List CleanRow)
  analytics : Option Analytics

/-- The six required columns checked by load_data. -/
def REQUIRED_COLS : List String :=
  ["timestamp", "ticker", "action", "quantity", "price", "trader_id"]

/-- The required columns absent from a file's header. -/
def missingCols (csv : Csv) : List String :=
  REQUIRED_COLS.filter (fun c => !csv.header.contains c)

/-- load_data: store the parsed file in self.df, then validate the header;
the assignment happens before the column check, so the table stays stored
even when the check fails. -/
def load_data (s : ProcState) (csv : Csv) : ProcState × Except PipelineErr (List RawRow) :=
  let s' := { s with df := some csv.rows }
  if missingCols csv ≠ [] then (s', Except.error (PipelineErr.schemaErr (missingCols csv)))
  else (s', Except.ok csv.rows)

/-- clean_data: fail when no table is loaded, otherwise clean a copy of the
raw table and store the result in self.cleaned_df. -/
def clean_data (s : ProcState) : ProcState × Except PipelineErr (List CleanRow) :=
  match s.df with
  | none => (s, Except.error (PipelineErr.invalidState "Data not loaded. Call load_data() first."))
  | some df =>
    let cleaned := cleanRows df
    ({ s with cleaned_df := some cleaned }, Except.ok cleaned)

/-- calculate_analytics: fail when no cleaned table exists, otherwise compute
the bundle from the cleaned table and store it. -/
def calculate_analytics (s : ProcState) : ProcState × Except PipelineErr Analytics :=
  match s.cleaned_df with
  | none => (s, Except.error (PipelineErr.invalidState "Data not cleaned. Call clean_data() first."))
  | some df =>
    let a := computeAnalytics df
    ({ s with analytics := some a }, Except.ok a)

/-- Membership test of the inclusive time-range mask. -/
def inRange (st en : DateTime) (t : CleanRow) : Bool :=
  decide (dtKey st ≤ dtKey t.timestamp) && decide (dtKey t.timestamp ≤ dtKey en)

/-- get_transactions_by_timerange: fail when no cleaned table exists, parse
both bounds leniently (raising on failure), then filter inclusively on both
sides. -/
def get_transactions_by_timerange (s : ProcState) (start_date end_date : String) :
    Except PipelineErr (List CleanRow) :=
  match s.cleaned_df with
  | none => Except.error (PipelineErr.invalidState "Data not cleaned. Call clean_data() first.")
  | some df =>
    match parseLenient start_date with
    | none => Except.error PipelineErr.parseErr
    | some st =>
      match parseLenient end_date with
      | none => Except.error PipelineErr.parseErr
      | some en => Except.ok (df.filter (inRange st en))

/-! ### Characterization of the cleaning stage -/

theorem cleanRows_eq (rows : List RawRow) :
    cleanRows rows = List.insertionSort tsLe ((rows.filter rawOk).map cleanOf) := by
  unfold cleanRows
  rw [List.filter_map, List.filter_map, List.filter_map, List.filter_filter,
    List.filter_filter, List.map_map]
  have hfun : (finalizeMid ∘ midOf) = cleanOf := rfl
  rw [hfun]
  refine congrArg (List.insertionSort tsLe)
    (congrArg (List.map cleanOf) (List.filter_congr (fun r _ => ?_)))
  simp only [Function.comp]
  unfold rawOk
  cases passDropna (midOf r) <;> cases passAction (midOf r) <;>
    cases passPositive (midOf r) <;> simp

theorem cleanRows_perm (rows : List RawRow) :
    (cleanRows rows).Perm ((rows.filter rawOk).map cleanOf) := by
  rw [cleanRows_eq]; exact List.perm_insertionSort _ _

theorem cleanRows_sorted (rows : List RawRow) : List.Sorted tsLe (cleanRows rows) := by
  rw [cleanRows_eq]; exact List.sorted_insertionSort _ _

theorem mem_cleanRows_iff {rows : List RawRow} {t : CleanRow} :
    t ∈ cleanRows rows ↔ ∃ r ∈ rows, rawOk r = true ∧ cleanOf r = t := by
  rw [(cleanRows_perm rows).mem_iff]
  simp only [List.mem_map, List.mem_filter]
  constructor
  · rintro ⟨r, ⟨hr, hok⟩, hv⟩; exact ⟨r, hr, hok, hv⟩
  · rintro ⟨r, hr, hok, hv⟩; exact ⟨r, ⟨hr, hok⟩, hv⟩

theorem parseTimestampStrict_valid {s : String} {dt : DateTime}
    (h : parseTimestampStrict s = some dt) : validDT dt = true := by
  unfold parseTimestampStrict at h
  split at h
  · split at h
    · split at h
      · dsimp only at h
        split at h
        · injection h with h'; subst h'; assumption
        · exact absurd h (by simp)
      · exact absurd h (by simp)
    · exact absurd h (by simp)
  · exact absurd h (by simp)

/-- The row-validity predicate as the specification states it: strict
timestamp parse succeeds, normalized action is BUY or SELL, and quantity and
price coerce to strictly positive numbers. -/
def posNumQ (o : Option ℚ) : Bool :=
  match o with
  | some q => decide (0 < q)
  | none => false

/-- A raw row satisfies all row-validity predicates of the claim. -/
def rawValidClaim (r : RawRow) : Bool :=
  (parseTimestampStrict r.timestamp).isSome
    && (normalizeField r.action = "BUY" || normalizeField r.action = "SELL")
    && posNumQ (parseNum r.quantity) && posNumQ (parseNum r.price)

theorem rawOk_eq_rawValidClaim (r : RawRow) : rawOk r = rawValidClaim r := by
  unfold rawOk rawValidClaim passDropna passAction passPositive nonposQ posNumQ midOf
  cases ht : parseTimestampStrict r.timestamp <;>
    cases hq : parseNum r.quantity <;> cases hp : parseNum r.price <;>
      simp [Bool.not_or, ← decide_not, not_le, Bool.and_assoc, Bool.and_comm, Bool.and_left_comm]

theorem rawOk_elim {r : RawRow} (h : rawOk r = true) :
    ∃ dt q p, parseTimestampStrict r.timestamp = some dt ∧ parseNum r.quantity = some q ∧
      parseNum r.price = some p ∧ 0 < q ∧ 0 < p ∧
      (normalizeField r.action = "BUY" ∨ normalizeField r.action = "SELL") := by
  unfold rawOk passDropna passAction passPositive nonposQ midOf at h
  cases ht : parseTimestampStrict r.timestamp <;> cases hq : parseNum r.quantity <;>
    cases hp : parseNum r.price <;> simp [ht, hq, hp, not_le] at h
  exact ⟨_, _, _, rfl, rfl, rfl, h.2.1, h.2.2, h.1⟩

theorem cleanOf_fields {r : RawRow} {dt : DateTime} {q p : ℚ}
    (ht : parseTimestampStrict r.timestamp = some dt)
    (hq : parseNum r.quantity = some q) (hp : parseNum r.price = some p) :
    (cleanOf r).timestamp = dt ∧ (cleanOf r).ticker = normalizeField r.ticker ∧
    (cleanOf r).action = normalizeField r.action ∧
    (cleanOf r).trader_id = normalizeField r.trader_id ∧
    (cleanOf r).quantity = q ∧ (cleanOf r).price = p ∧
    (cleanOf r).total_value = q * p ∧ (cleanOf r).date = (dt.year, dt.month, dt.day) := by
  unfold cleanOf finalizeMid midOf
  simp [ht, hq, hp]

/-! ### Claim theorems: the cleaning stage -/

/-- C1: the cleaned table is, up to the final timestamp sort, exactly one row
for each raw row whose timestamp parses under the exact format, whose
normalized action is BUY or SELL, and whose quantity and price coerce to
strictly positive numbers — rows failing any predicate are excluded — and on
each such row the derived fields satisfy total_value = quantity * price and
date = the calendar-date part of the parsed timestamp. -/
theorem c1_clean_data_valid_rows (rows : List RawRow) :
    (cleanRows rows).Perm ((rows.filter rawValidClaim).map cleanOf)
    ∧ ∀ r dt q p, parseTimestampStrict r.timestamp = some dt →
        parseNum r.quantity = some q → parseNum r.price = some p →
        (cleanOf r).quantity = q ∧ (cleanOf r).price = p ∧
        (cleanOf r).total_value = q * p ∧ (cleanOf r).date = (dt.year, dt.month, dt.day) := by
  constructor
  · have hf : rows.filter rawValidClaim = rows.filter rawOk :=
      List.filter_congr (fun x _ => (rawOk_eq_rawValidClaim x).symm)
    rw [hf]
    exact cleanRows_perm rows
  · intro r dt q p ht hq hp
    obtain ⟨-, -, -, -, h5, h6, h7, h8⟩ := cleanOf_fields ht hq hp
    exact ⟨h5, h6, h7, h8⟩

/-- A concrete valid raw row used by the C1 witness. -/
def exValidRow : RawRow :=
  ⟨"2024-01-01 10:00:00", " aapl ", " buy ", "10", "100", " t1 "⟩

/-- Witness for C1 at a concrete row: the hypotheses hold and the derived
fields come out as claimed. -/
theorem c1_witness :
    parseTimestampStrict exValidRow.timestamp = some ⟨2024, 1, 1, 10, 0, 0⟩
    ∧ (cleanOf exValidRow).total_value = 10 * 100
    ∧ (cleanOf exValidRow).date = (2024, 1, 1) := by
  have ht : parseTimestampStrict exValidRow.timestamp = some ⟨2024, 1, 1, 10, 0, 0⟩ := by decide
  have hq : parseNum exValidRow.quantity = some 10 := by decide
  have hp : parseNum exValidRow.price = some 100 := by decide
  obtain ⟨-, -, h3, h4⟩ :=
    (c1_clean_data_valid_rows [exValidRow]).2 exValidRow ⟨2024, 1, 1, 10, 0, 0⟩ 10 100 ht hq hp
  exact ⟨ht, h3, h4⟩

/-- C3 (amended): every row of the cleaned table has action BUY or SELL,
strictly positive quantity and price, a calendar-valid parsed timestamp,
correct derived fields, and ticker and trader_id equal to the trimmed
upper-cased raw fields (possibly empty: the code enforces no non-emptiness);
the table is sorted by timestamp ascending (row positions of a list are
contiguous from zero by construction). -/
theorem c3_cleaned_table_invariants (rows : List RawRow) :
    List.Sorted tsLe (cleanRows rows)
    ∧ ∀ t ∈ cleanRows rows,
        (t.action = "BUY" ∨ t.action = "SELL") ∧ 0 < t.quantity ∧ 0 < t.price
        ∧ validDT t.timestamp = true
        ∧ t.total_value = t.quantity * t.price
        ∧ t.date = (t.timestamp.year, t.timestamp.month, t.timestamp.day)
        ∧ ∃ r ∈ rows, t.ticker = normalizeField r.ticker ∧
            t.trader_id = normalizeField r.trader_id := by
  refine ⟨cleanRows_sorted rows, ?_⟩
  intro t htm
  obtain ⟨r, hr, hok, hcl⟩ := mem_cleanRows_iff.1 htm
  obtain ⟨dt, q, p, ht, hq, hp, hq0, hp0, hact⟩ := rawOk_elim hok
  obtain ⟨f1, f2, f3, f4, f5, f6, f7, f8⟩ := cleanOf_fields ht hq hp
  subst hcl
  exact ⟨by rw [f3]; exact hact, by rw [f5]; exact hq0, by rw [f6]; exact hp0,
    by rw [f1]; exact parseTimestampStrict_valid ht, by rw [f7, f5, f6],
    by rw [f8, f1], ⟨r, hr, f2, f4⟩⟩

/-- A raw row whose ticker field is whitespace only. -/
def c3Row : RawRow := ⟨"2024-01-01 10:00:00", "   ", " buy ", "10", "100", " t1 "⟩

/-- C3 counterexample: a row whose ticker is whitespace only survives
cleaning with an empty ticker, so the cleaned table does not guarantee a
non-empty ticker as the claim states. -/
theorem c3_counterexample : ∃ t ∈ cleanRows [c3Row], t.ticker = "" := by decide

/-- Witness for C3 at a concrete table: the invariants hold on the cleaned
image of a concrete row. -/
theorem c3_witness :
    List.Sorted tsLe (cleanRows [exValidRow])
    ∧ ∀ t ∈ cleanRows [exValidRow], (t.action = "BUY" ∨ t.action = "SELL") := by
  refine ⟨(c3_cleaned_table_invariants [exValidRow]).1, fun t ht => ?_⟩
  exact ((c3_cleaned_table_invariants [exValidRow]).2 t ht).1

/-- C6: once a raw table is loaded, clean_data always succeeds — row-level
defects only drop rows — and when every row is invalid the result is the
empty cleaned table, not a failure. -/
theorem c6_clean_always_succeeds (s : ProcState) (df : List RawRow) (h : s.df = some df) :
    (clean_data s).snd = Except.ok (cleanRows df)
    ∧ ((∀ r ∈ df, rawOk r = false) → cleanRows df = []) := by
  constructor
  · simp [clean_data, h]
  · intro hall
    rw [cleanRows_eq]
    have hnil : df.filter rawOk = [] :=
      List.filter_eq_nil_iff.2 (fun a ha => by rw [hall a ha]; simp)
    rw [hnil]
    rfl

/-- The all-defective raw table from the specification's scenario: a bad
timestamp, an invalid action, and a non-positive quantity. -/
def allBadRows : List RawRow :=
  [⟨"bad_time", "AAPL", "BUY", "10", "100", "T1"⟩,
   ⟨"2024-01-01 10:00:00", "AAPL", "HOLD", "10", "100", "T1"⟩,
   ⟨"2024-01-01 11:00:00", "MSFT", "SELL", "0", "200", "T2"⟩]

/-- Witness for C6: on a loaded table whose rows are all defective, cleaning
succeeds with an empty cleaned table. -/
theorem c6_witness :
    (clean_data ⟨some allBadRows, none, none⟩).snd = Except.ok (cleanRows allBadRows)
    ∧ cleanRows allBadRows = [] := by
  have h := c6_clean_always_succeeds ⟨some allBadRows, none, none⟩ allBadRows rfl
  exact ⟨h.1, h.2 (by decide)⟩

/-- C9: clean_data works on a copy — the stored raw table is unchanged by the
call — and re-invoking clean_data re-derives the same cleaned table from that
same input. -/
theorem c9_clean_preserves_raw (s : ProcState) :
    ((clean_data s).fst).df = s.df
    ∧ (clean_data ((clean_data s).fst)).snd = (clean_data s).snd := by
  cases h : s.df <;> simp [clean_data, h]

/-! ### Claim theorems: stage preconditions and the load check -/

/-- C2 (amended): calculate_analytics fails with the invalid-state error
exactly when no cleaned table exists; whenever a cleaned table exists —
including an empty one — it succeeds with the bundle computed from it. -/
theorem c2_calculate_analytics_state (s : ProcState) :
    (s.cleaned_df = none →
      (calculate_analytics s).snd =
        Except.error (PipelineErr.invalidState "Data not cleaned. Call clean_data() first."))
    ∧ ∀ df, s.cleaned_df = some df →
        (calculate_analytics s).snd = Except.ok (computeAnalytics df) := by
  constructor
  · intro h; simp [calculate_analytics, h]
  · intro df h; simp [calculate_analytics, h]

/-- C2 counterexample: on a state whose cleaned table exists but is empty,
calculate_analytics succeeds with a bundle instead of failing with an
InvalidState error as the claim requires. -/
theorem c2_counterexample :
    (ProcState.mk none (some []) none).cleaned_df = some ([] : List CleanRow)
    ∧ (calculate_analytics ⟨none, some [], none⟩).snd = Except.ok (computeAnalytics [])
    ∧ ∀ e, (calculate_analytics ⟨none, some [], none⟩).snd ≠ Except.error e := by
  refine ⟨rfl, rfl, fun e h => ?_⟩
  simp [calculate_analytics] at h

/-- Witness for C2: the error branch on a state with no cleaned table, and
the success branch on a state with an (empty) cleaned table. -/
theorem c2_witness :
    (calculate_analytics ⟨none, none, none⟩).snd =
      Except.error (PipelineErr.invalidState "Data not cleaned. Call clean_data() first.")
    ∧ (calculate_analytics ⟨none, some [], none⟩).snd = Except.ok (computeAnalytics []) :=
  ⟨(c2_calculate_analytics_state ⟨none, none, none⟩).1 rfl,
    (c2_calculate_analytics_state ⟨none, some [], none⟩).2 [] rfl⟩

/-- C4 (amended): load_data reports the schema error naming the missing
columns if and only if at least one required column is absent, succeeds with
the rows otherwise, and performs no row-level processing (the cleaned table
is untouched); however the parsed table is stored in the state before the
check, so the loaded rows are retained even on the error path. -/
theorem c4_load_schema_check (s : ProcState) (csv : Csv) :
    ((load_data s csv).snd = Except.error (PipelineErr.schemaErr (missingCols csv)) ↔
      ∃ c ∈ REQUIRED_COLS, csv.header.contains c = false)
    ∧ ((load_data s csv).snd = Except.ok csv.rows ↔ missingCols csv = [])
    ∧ (load_data s csv).fst.df = some csv.rows
    ∧ (load_data s csv).fst.cleaned_df = s.cleaned_df := by
  have hiff : missingCols csv ≠ [] ↔ ∃ c ∈ REQUIRED_COLS, csv.header.contains c = false := by
    unfold missingCols
    rw [Ne, List.filter_eq_nil_iff]
    push_neg
    simp
  refine ⟨⟨fun herr => ?_, fun hex => ?_⟩, ?_, ?_, ?_⟩
  · by_cases h : missingCols csv = []
    · simp [load_data, h] at herr
    · exact hiff.1 h
  · have h := hiff.2 hex
    simp [load_data, h]
  · by_cases h : missingCols csv = [] <;> simp [load_data, h]
  · by_cases h : missingCols csv = [] <;> simp [load_data, h]
  · by_cases h : missingCols csv = [] <;> simp [load_data, h]

/-- A parsed file whose header lacks the price column. -/
def csvNoPrice : Csv :=
  ⟨["timestamp", "ticker", "action", "quantity", "trader_id"],
   [⟨"2024-01-01 10:00:00", "AAPL", "BUY", "10", "100", "T1"⟩]⟩

/-- Witness for C4 at a concrete file and state. -/
theorem c4_witness :
    ((load_data ⟨none, none, none⟩ csvNoPrice).snd = Except.ok csvNoPrice.rows ↔
      missingCols csvNoPrice = [])
    ∧ (load_data ⟨none, none, none⟩ csvNoPrice).fst.df = some csvNoPrice.rows :=
  ⟨(c4_load_schema_check ⟨none, none, none⟩ csvNoPrice).2.1,
   (c4_load_schema_check ⟨none, none, none⟩ csvNoPrice).2.2.1⟩

/-- C4 counterexample: loading a file missing the price column reports the
schema error, yet the parsed rows remain stored in the state — the claim's
"no partial load is retained on that path" fails on the code. -/
theorem c4_counterexample :
    (load_data ⟨none, none, none⟩ csvNoPrice).snd =
      Except.error (PipelineErr.schemaErr ["price"])
    ∧ (load_data ⟨none, none, none⟩ csvNoPrice).fst.df ≠ none := by
  constructor
  · rfl
  · have h : (load_data ⟨none, none, none⟩ csvNoPrice).fst.df = some csvNoPrice.rows := rfl
    rw [h]
    exact Option.some_ne_none _

/-! ### Claim theorems: the time-range query -/

/-- C7: with a cleaned table present, get_transactions_by_timerange returns
exactly the rows whose timestamp lies inclusively between the parsed bounds,
in timestamp order, whenever both bounds parse under the lenient parser; and
it raises the parse error — not an empty result — when either bound fails to
parse. -/
theorem c7_timerange_query (rows : List RawRow) (s : ProcState) (sd ed : String)
    (hs : s.cleaned_df = some (cleanRows rows)) :
    (∀ st en, parseLenient sd = some st → parseLenient ed = some en →
        get_transactions_by_timerange s sd ed =
          Except.ok ((cleanRows rows).filter (inRange st en))
        ∧ List.Sorted tsLe ((cleanRows rows).filter (inRange st en)))
    ∧ ((parseLenient sd = none ∨ parseLenient ed = none) →
        get_transactions_by_timerange s sd ed = Except.error PipelineErr.parseErr) := by
  constructor
  · intro st en h1 h2
    exact ⟨by simp [get_transactions_by_timerange, hs, h1, h2],
      (cleanRows_sorted rows).filter _⟩
  · rintro (h | h)
    · simp [get_transactions_by_timerange, hs, h]
    · cases h1 : parseLenient sd <;>
        simp [get_transactions_by_timerange, hs, h1, h]

/-- A two-row table spanning January and February, used by the query
witnesses. -/
def exRows2 : List RawRow :=
  [exValidRow, ⟨"2024-02-01 10:00:00", "MSFT", "BUY", "5", "200", "T2"⟩]

/-- Witness for C7: a concrete query with parseable bounds returns the
filtered table, and a query with an unparsable bound raises the parse
error. -/
theorem c7_witness :
    get_transactions_by_timerange ⟨none, some (cleanRows exRows2), none⟩
        "2024-01-01" "2024-01-31"
      = Except.ok ((cleanRows exRows2).filter
          (inRange ⟨2024, 1, 1, 0, 0, 0⟩ ⟨2024, 1, 31, 0, 0, 0⟩))
    ∧ get_transactions_by_timerange ⟨none, some (cleanRows exRows2), none⟩
        "nope" "2024-01-31"
      = Except.error PipelineErr.parseErr := by
  have h := c7_timerange_query exRows2 ⟨none, some (cleanRows exRows2), none⟩
    "2024-01-01" "2024-01-31" rfl
  have h2 := c7_timerange_query exRows2 ⟨none, some (cleanRows exRows2), none⟩
    "nope" "2024-01-31" rfl
  exact ⟨(h.1 ⟨2024, 1, 1, 0, 0, 0⟩ ⟨2024, 1, 31, 0, 0, 0⟩ (by decide) (by decide)).1,
    h2.2 (Or.inl (by decide))⟩

/-- C10: when both bounds parse and the start is strictly after the end, the
query returns an empty result rather than raising. -/
theorem c10_inverted_range_empty (df : List CleanRow) (s : ProcState) (sd ed : String)
    (st en : DateTime) (h : s.cleaned_df = some df)
    (hsd : parseLenient sd = some st) (hed : parseLenient ed = some en)
    (hlt : dtKey en < dtKey st) :
    get_transactions_by_timerange s sd ed = Except.ok [] := by
  have hfil : df.filter (inRange st en) = [] := by
    refine List.filter_eq_nil_iff.2 (fun t _ => ?_)
    simp only [inRange, Bool.and_eq_true, decide_eq_true_eq, not_and, not_le]
    intro h1
    omega
  simp [get_transactions_by_timerange, h, hsd, hed, hfil]

/-- Witness for C10: a concrete inverted range on a concrete cleaned table
returns the empty list. -/
theorem c10_witness :
    get_transactions_by_timerange ⟨none, some (cleanRows exRows2), none⟩
        "2024-02-01" "2024-01-01"
      = Except.ok [] :=
  c10_inverted_range_empty (cleanRows exRows2) ⟨none, some (cleanRows exRows2), none⟩
    "2024-02-01" "2024-01-01" ⟨2024, 2, 1, 0, 0, 0⟩ ⟨2024, 1, 1, 0, 0, 0⟩ rfl
    (by decide) (by decide) (by decide)

/-! ### Claim theorems: analytics -/

theorem mem_map_pair {β : Type} {keys : List String} {f : String → β} {k : String} {v : β}
    (h : (k, v) ∈ keys.map (fun x => (x, f x))) : v = f k := by
  induction keys with
  | nil => cases h
  | cons a as ih =>
    rcases List.mem_cons.1 h with h1 | h1
    · injection h1 with hk hv
      subst hk
      exact hv
    · exact ih h1

theorem mem_map_pair_self {β : Type} {keys : List String} (f : String → β) {k : String}
    (hk : k ∈ keys) : (k, f k) ∈ keys.map (fun x => (x, f x)) :=
  List.mem_map.2 ⟨k, hk, rfl⟩

theorem lookup_map_pair_self {keys : List String} (f : String → ℚ) {k : String}
    (hk : k ∈ keys) : List.lookup k (keys.map (fun x => (x, f x))) = some (f k) := by
  induction keys with
  | nil => cases hk
  | cons a as ih =>
    by_cases h : k = a
    · subst h
      simp [List.lookup]
    · rcases List.mem_cons.1 hk with h1 | h1
      · exact absurd h1 h
      · have hb : (k == a) = false := beq_eq_false_iff_ne.2 h
        simp only [List.map_cons, List.lookup, hb]
        exact ih h1

theorem lookup_map_pair_none {keys : List String} (f : String → ℚ) {k : String}
    (hk : k ∉ keys) : List.lookup k (keys.map (fun x => (x, f x))) = none := by
  induction keys with
  | nil => rfl
  | cons a as ih =>
    simp only [List.mem_cons, not_or] at hk
    have hb : (k == a) = false := beq_eq_false_iff_ne.2 hk.1
    simp only [List.map_cons, List.lookup, hb]
    exact ih hk.2

theorem sumForKey_eq_zero {pairs : List (String × ℚ)} {k : String}
    (h : k ∉ pairs.map Prod.fst) : sumForKey pairs k = 0 := by
  unfold sumForKey
  have hnil : pairs.filter (fun p => p.fst == k) = [] := by
    refine List.filter_eq_nil_iff.2 (fun p hp => ?_)
    simp only [beq_iff_eq]
    exact fun he => h (List.mem_map.2 ⟨p, hp, he⟩)
  rw [hnil]
  rfl

theorem groupSum_keys (pairs : List (String × ℚ)) :
    (groupSum pairs).map Prod.fst =
      List.insertionSort strLe (pairs.map Prod.fst).dedup := by
  unfold groupSum
  rw [List.map_map]
  have h : (Prod.fst ∘ fun k : String => (k, sumForKey pairs k)) = id := rfl
  rw [h, List.map_id]

theorem mem_groupSum_keys {pairs : List (String × ℚ)} {k : String} :
    k ∈ (groupSum pairs).map Prod.fst ↔ k ∈ pairs.map Prod.fst := by
  rw [groupSum_keys, (List.perm_insertionSort strLe _).mem_iff, List.mem_dedup]

theorem lookupZero_groupSum (pairs : List (String × ℚ)) (k : String) :
    lookupZero (groupSum pairs) k = sumForKey pairs k := by
  unfold lookupZero groupSum
  by_cases hk : k ∈ List.insertionSort strLe (pairs.map Prod.fst).dedup
  · rw [lookup_map_pair_self _ hk]
    rfl
  · rw [lookup_map_pair_none _ hk]
    have hmem : k ∉ pairs.map Prod.fst := fun hmem =>
      hk ((List.perm_insertionSort strLe _).mem_iff.2 (List.mem_dedup.2 hmem))
    rw [Option.getD_none, sumForKey_eq_zero hmem]

def buyQtySum (df : List CleanRow) (t : String) : ℚ :=
  ((df.filter (fun r => r.action == "BUY" && r.ticker == t)).map (fun r => r.quantity)).sum

def sellQtySum (df : List CleanRow) (t : String) : ℚ :=
  ((df.filter (fun r => r.action == "SELL" && r.ticker == t)).map (fun r => r.quantity)).sum

theorem sumForKey_sidePairs (df : List CleanRow) (a t : String) :
    sumForKey ((df.filter (fun r => r.action == a)).map (fun r => (r.ticker, r.quantity))) t
      = ((df.filter (fun r => r.action == a && r.ticker == t)).map
          (fun r => r.quantity)).sum := by
  unfold sumForKey
  rw [List.filter_map, List.map_map, List.filter_filter]
  refine congrArg List.sum ?_
  have hsnd : (Prod.snd ∘ fun r : CleanRow => (r.ticker, r.quantity)) =
      fun r : CleanRow => r.quantity := rfl
  rw [hsnd]
  refine congrArg _ (List.filter_congr (fun r _ => ?_))
  simp only [Function.comp]
  cases hA : (r.action == a) <;> cases hT : (r.ticker == t) <;> simp [hA, hT]



theorem net_position_eq (df : List CleanRow) :
    (computeAnalytics df).net_position =
      sortValDesc
        (subFillZero
          (groupSum ((df.filter (fun r => r.action == "BUY")).map
            (fun r => (r.ticker, r.quantity))))
          (groupSum ((df.filter (fun r => r.action == "SELL")).map
            (fun r => (r.ticker, r.quantity))))) := rfl

theorem subFillZero_eq (buys sells : List (String × ℚ)) :
    subFillZero buys sells =
      (List.insertionSort strLe (buys.map Prod.fst ++ sells.map Prod.fst).dedup).map
        (fun k => (k, lookupZero buys k - lookupZero sells k)) := rfl

theorem mem_sortValDesc {pairs : List (String × ℚ)} {x : String × ℚ} :
    x ∈ sortValDesc pairs ↔ x ∈ pairs := by
  unfold sortValDesc
  exact (List.perm_insertionSort _ _).mem_iff

set_option maxHeartbeats 1000000 in
/-- C5: for every cleaned table and every ticker appearing in it, the
net_position mapping holds exactly one entry for that ticker, equal to the
sum of its BUY quantities minus the sum of its SELL quantities, with a
missing side contributing zero — never a missing entry. -/
theorem c5_net_position (rows : List RawRow) (t : String)
    (ht : t ∈ (cleanRows rows).map (fun r => r.ticker)) :
    (t, buyQtySum (cleanRows rows) t - sellQtySum (cleanRows rows) t)
        ∈ (computeAnalytics (cleanRows rows)).net_position
    ∧ ∀ v, (t, v) ∈ (computeAnalytics (cleanRows rows)).net_position →
        v = buyQtySum (cleanRows rows) t - sellQtySum (cleanRows rows) t := by
  obtain ⟨rr, hrr, hticker⟩ := List.mem_map.1 ht
  obtain ⟨r, hr, hok, hcl⟩ := mem_cleanRows_iff.1 hrr
  obtain ⟨dt, q, p, hts, hq, hp, hq0, hp0, hact⟩ := rawOk_elim hok
  obtain ⟨g1, g2, g3, g4, g5, g6, g7, g8⟩ := cleanOf_fields hts hq hp
  have hactrr : rr.action = "BUY" ∨ rr.action = "SELL" := by
    rw [← hcl, g3]; exact hact
  have hkeymem :
      t ∈ (((cleanRows rows).filter (fun r => r.action == "BUY")).map
            (fun r => (r.ticker, r.quantity))).map Prod.fst
      ∨ t ∈ (((cleanRows rows).filter (fun r => r.action == "SELL")).map
            (fun r => (r.ticker, r.quantity))).map Prod.fst := by
    rcases hactrr with hA | hA
    · left
      refine List.mem_map.2 ⟨(rr.ticker, rr.quantity), ?_, hticker⟩
      exact List.mem_map.2 ⟨rr, List.mem_filter.2 ⟨hrr, by rw [hA]; rfl⟩, rfl⟩
    · right
      refine List.mem_map.2 ⟨(rr.ticker, rr.quantity), ?_, hticker⟩
      exact List.mem_map.2 ⟨rr, List.mem_filter.2 ⟨hrr, by rw [hA]; rfl⟩, rfl⟩
  have hknp : t ∈ List.insertionSort strLe
      (((groupSum (((cleanRows rows).filter (fun r => r.action == "BUY")).map
          (fun r => (r.ticker, r.quantity)))).map Prod.fst
        ++ (groupSum (((cleanRows rows).filter (fun r => r.action == "SELL")).map
          (fun r => (r.ticker, r.quantity)))).map Prod.fst)).dedup := by
    rw [(List.perm_insertionSort strLe _).mem_iff, List.mem_dedup, List.mem_append]
    rcases hkeymem with h | h
    · exact Or.inl (mem_groupSum_keys.2 h)
    · exact Or.inr (mem_groupSum_keys.2 h)
  have hFval : ∀ k, lookupZero (groupSum (((cleanRows rows).filter
        (fun r => r.action == "BUY")).map (fun r => (r.ticker, r.quantity)))) k
      - lookupZero (groupSum (((cleanRows rows).filter
        (fun r => r.action == "SELL")).map (fun r => (r.ticker, r.quantity)))) k
      = buyQtySum (cleanRows rows) k - sellQtySum (cleanRows rows) k := by
    intro k
    rw [lookupZero_groupSum, lookupZero_groupSum, sumForKey_sidePairs, sumForKey_sidePairs]
    rfl
  have hmem1 : (t, buyQtySum (cleanRows rows) t - sellQtySum (cleanRows rows) t)
      ∈ (computeAnalytics (cleanRows rows)).net_position := by
    rw [net_position_eq, mem_sortValDesc, subFillZero_eq, ← hFval t]
    exact mem_map_pair_self _ hknp
  refine ⟨hmem1, fun v hv => ?_⟩
  rw [net_position_eq, mem_sortValDesc, subFillZero_eq] at hv
  have hveq := mem_map_pair hv
  rw [hveq, hFval t]



theorem sumForKey_cons (x : String × ℚ) (xs : List (String × ℚ)) (k : String) :
    sumForKey (x :: xs) k =
      if x.fst = k then x.snd + sumForKey xs k else sumForKey xs k := by
  unfold sumForKey
  rw [List.filter_cons]
  by_cases h : x.fst = k
  · have hb : (x.fst == k) = true := beq_iff_eq.2 h
    simp [hb, h]
  · have hb : (x.fst == k) = false := beq_eq_false_iff_ne.2 h
    simp [hb, h]

theorem sum_map_const_zero (keys : List String) :
    (keys.map (fun _ => (0 : ℚ))).sum = 0 := by
  induction keys with
  | nil => rfl
  | cons a as ih => simp [ih]

theorem sum_map_if_insert (keys : List String) (a : String) (c : ℚ) (f : String → ℚ)
    (hnd : keys.Nodup) (ha : a ∈ keys) :
    (keys.map (fun k => if a = k then c + f k else f k)).sum = c + (keys.map f).sum := by
  induction keys with
  | nil => cases ha
  | cons b bs ih =>
    rw [List.nodup_cons] at hnd
    rcases List.mem_cons.1 ha with h1 | h1
    · subst h1
      rw [List.map_cons, List.sum_cons, if_pos rfl]
      have hrest : bs.map (fun k => if a = k then c + f k else f k) = bs.map f :=
        List.map_congr_left (fun x hx => by
          rw [if_neg]
          exact fun he => hnd.1 (he ▸ hx))
      rw [hrest, List.map_cons, List.sum_cons]
      ring
    · have hba : a ≠ b := fun he => hnd.1 (he ▸ h1)
      rw [List.map_cons, List.sum_cons, if_neg hba, List.map_cons, List.sum_cons,
        ih hnd.2 h1]
      ring

theorem sum_fiberwise (keys : List String) (hnd : keys.Nodup) :
    ∀ pairs : List (String × ℚ), (∀ p ∈ pairs, p.fst ∈ keys) →
      (keys.map (fun k => sumForKey pairs k)).sum = (pairs.map Prod.snd).sum := by
  intro pairs
  induction pairs with
  | nil =>
    intro _
    have h : keys.map (fun k => sumForKey ([] : List (String × ℚ)) k)
        = keys.map (fun _ => (0 : ℚ)) :=
      List.map_congr_left (fun k _ => rfl)
    rw [h, sum_map_const_zero]
    rfl
  | cons x xs ih =>
    intro hcov
    have h1 : keys.map (fun k => sumForKey (x :: xs) k)
        = keys.map (fun k => if x.fst = k then x.snd + sumForKey xs k else sumForKey xs k) :=
      List.map_congr_left (fun k _ => sumForKey_cons x xs k)
    rw [h1, sum_map_if_insert keys x.fst x.snd _ hnd (hcov x (List.mem_cons_self x xs)),
      ih (fun p hp => hcov p (List.mem_cons_of_mem x hp)), List.map_cons, List.sum_cons]

theorem sum_groupSum (pairs : List (String × ℚ)) :
    ((groupSum pairs).map Prod.snd).sum = (pairs.map Prod.snd).sum := by
  unfold groupSum
  rw [List.map_map]
  have h : (Prod.snd ∘ fun k : String => (k, sumForKey pairs k))
      = fun k => sumForKey pairs k := rfl
  rw [h, ((List.perm_insertionSort strLe (pairs.map Prod.fst).dedup).map
    (fun k => sumForKey pairs k)).sum_eq]
  exact sum_fiberwise _ (List.nodup_dedup _) pairs
    (fun p hp => List.mem_dedup.2 (List.mem_map.2 ⟨p, hp, rfl⟩))

/-- C8: the per-ticker volumes of the analytics bundle sum exactly to
total_volume, and total_volume is the sum of total_value over all rows
(exact rational equality, which subsumes the claim's floating tolerance). -/
theorem c8_volume_consistency (df : List CleanRow) :
    ((computeAnalytics df).volume_by_ticker.map Prod.snd).sum
      = (computeAnalytics df).total_volume
    ∧ (computeAnalytics df).total_volume = (df.map (fun t => t.total_value)).sum := by
  constructor
  · have h1 : (computeAnalytics df).volume_by_ticker
        = sortValDesc (groupSum (df.map (fun t => (t.ticker, t.total_value)))) := rfl
    rw [h1]
    unfold sortValDesc
    rw [((List.perm_insertionSort _ _).map Prod.snd).sum_eq, sum_groupSum, List.map_map]
    rfl
  · rfl

/-- A cleaned table whose single ticker appears only on the BUY side. -/
def oneSidedRows : List RawRow :=
  [⟨"2024-01-01 10:00:00", "AAPL", "BUY", "10", "100", "T1"⟩,
   ⟨"2024-01-01 11:00:00", "AAPL", "BUY", "4", "110", "T1"⟩]

/-- Witness for C5 on an all-BUY ticker: the net-position entry exists (and
by the theorem equals the total BUY quantity minus zero). -/
theorem c5_witness :
    ("AAPL", buyQtySum (cleanRows oneSidedRows) "AAPL"
        - sellQtySum (cleanRows oneSidedRows) "AAPL")
      ∈ (computeAnalytics (cleanRows oneSidedRows)).net_position :=
  (c5_net_position oneSidedRows "AAPL" (by decide)).1

/-- Witness for C8 at a concrete cleaned table. -/
theorem c8_witness :
    (((computeAnalytics (cleanRows oneSidedRows)).volume_by_ticker.map Prod.snd).sum
      = (computeAnalytics (cleanRows oneSidedRows)).total_volume) :=
  (c8_volume_consistency (cleanRows oneSidedRows)).1

/-- Witness for C9 at a concrete state. -/
theorem c9_witness :
    ((clean_data ⟨some oneSidedRows, none, none⟩).fst).df = some oneSidedRows :=
  (c9_clean_preserves_raw ⟨some oneSidedRows, none, none⟩).1

end PortfolioInsights
